import Mathlib

/-!
Verification of the frame-assembly and streaming-body layer of
`dubbo-rust` (`src/triple/src/server/encode.rs`).

The Rust source is shallowly embedded:

* byte buffers (`BytesMut`, `Bytes`) become `List Nat` (each element a byte
  value);
* `tonic::Status` becomes a code/message record;
* the pluggable `Encoder` and `Compressor` capabilities (declared in
  `crate::codec` and `super::compression`, which the spec treats as external
  collaborators) are parameters: each call returns the bytes it appended to
  its destination buffer together with the optional error the call returned;
* the `async_stream` encode loop, pulled lazily by the consumer, is embedded
  as a function from the (finite) list of input items to the list of items
  the stream yields, in pull order;
* `EncodeBody` and its `http_body::Body` implementation become an explicit
  state record with `poll_data` / `poll_trailers` / `is_end_stream` as state
  transformers; `Poll::Pending` never occurs in the embedded fragment beyond
  waiting for the inner stream, so each poll is total on the finite model.

Faithfulness notes, each traceable to the source:

* `encode.rs` line 60/63/65: the `Result` produced by
  `encoder.encode(..).map_err(|_| Status::internal(..))` and by
  `compress(..).map_err(|_| Status::internal(..))` is discarded (the file
  carries `#[allow(unused_must_use)]`); the embedding therefore frames the
  bytes the failing call appended and yields `Ok`, never the constructed
  internal status.
* line 78: `Some(Err(err)) => yield Err(err.into())` is not followed by a
  `break`; the loop keeps pulling, so the embedding keeps mapping the
  remaining input after an error item.
* lines 69-73: `len as u32` truncates the payload length modulo 2^32 before
  it is written big-endian into header bytes 1..4.
* lines 177-189: `poll_trailers` sets `is_end_stream := true` only inside
  the `if let Some(status) = error.take()` branch; on the no-stored-error
  path it answers an ok trailer and leaves the flag untouched.
-/

namespace DubboRust

deriving instance DecidableEq for Except

/-- RPC status, the relevant shape of `tonic::Status`: a numeric code and a
human-readable message. -/
structure Status where
  code : Nat
  message : String
deriving DecidableEq, Repr

/-- Status constructor mirroring `tonic::Status::ok` (code 0). -/
def Status.statusOk (msg : String) : Status := ⟨0, msg⟩

/-- Status constructor mirroring `tonic::Status::internal` (code 13). -/
def Status.internalStatus (msg : String) : Status := ⟨13, msg⟩

/-- Compression encodings from `super::compression::CompressionEncoding`;
only `Gzip` exists in the repository. -/
inductive CompressionEncoding
  | gzip
deriving DecidableEq, Repr

/-- Encoder capability (`crate::codec::Encoder`, external per the spec).
`encode.rs` calls `encoder.encode(item, &mut EncodeBuf::new(&mut b))`, which
appends serialized bytes to the buffer `b` and returns
`Result<(), Status>`; the model returns the appended bytes paired with the
optional returned error (`none` = the call returned `Ok(())`). -/
structure Encoder (M : Type) where
  encode : M → List Nat × Option Status

/-- Compressor capability (`super::compression::compress`, external per the
spec). The source call site is
`compress(encoding, &mut uncompression_buf, &mut buf, len)`; the model takes
the encoding, the source buffer and the known source length and returns the
bytes appended to the destination buffer paired with the optional returned
error. -/
structure Compressor where
  compress : CompressionEncoding → List Nat → Nat → List Nat × Option Status

/-- Modelled from the spec: `super::consts::HEADER_SIZE`. The `consts`
module is not among the analysed sources; the spec fixes the header at
5 bytes (1 compression-flag byte + 4 length bytes). -/
def HEADER_SIZE : Nat := 5

/-- Big-endian 4-byte encoding of a value already reduced below 2^32. -/
def u32be (m : Nat) : List Nat :=
  [m / 2 ^ 24 % 256, m / 2 ^ 16 % 256, m / 2 ^ 8 % 256, m % 256]

/-- Embedding of `BufMut::put_u32(len as u32)`: the machine-word length is
first cast to `u32` (reduction modulo 2^32), then written big-endian. -/
def putU32 (n : Nat) : List Nat := u32be (n % 2 ^ 32)

/-- Read 4 bytes as an unsigned 32-bit big-endian integer (the receiver's
view of header bytes 1..4). -/
def readU32BE : List Nat → Nat
  | [b0, b1, b2, b3] => ((b0 * 256 + b1) * 256 + b2) * 256 + b3
  | _ => 0

/-- Truth of the `enable_compress` flag computed at `encode.rs` lines 43-46:
`Some(CompressionEncoding::Gzip)` enables compression, `None` disables it. -/
def enableCompress (ce : Option CompressionEncoding) : Bool := ce.isSome

/-- One iteration of the encode loop for a ready item (`encode.rs` lines
50-77). `buf` is empty at each iteration start (the previous iteration's
`split_to(len + HEADER_SIZE)` removed every byte it appended), so the
emitted frame is exactly the bytes this iteration appends: 5 reserved
header bytes, then the payload, with the header backfilled as
`put_u8(enable_compress as u8)` followed by `put_u32(len as u32)`.
The argument `uncompressionBuf` is the scratch buffer's content entering the
iteration; the result pairs the emitted frame with the scratch buffer's
content after the iteration (cleared and refilled with the encoder output
when compression is on, untouched otherwise). Errors returned by the
encoder or compressor are discarded exactly as the source discards them. -/
def frameStep {M : Type} (enc : Encoder M) (comp : Compressor)
    (ce : Option CompressionEncoding) (uncompressionBuf : List Nat) (item : M) :
    List Nat × List Nat :=
  match ce with
  | some e =>
      let ub := (enc.encode item).1
      let len0 := ub.length
      let payload := (comp.compress e ub len0).1
      ((if enableCompress ce then 1 else 0) :: putU32 payload.length ++ payload, ub)
  | none =>
      let payload := (enc.encode item).1
      ((if enableCompress ce then 1 else 0) :: putU32 payload.length ++ payload,
        uncompressionBuf)

/-- Frame emitted for one item; the scratch buffer entering the iteration
does not influence the frame (it is cleared before use), so it is fixed to
`[]` here. -/
def frameOf {M : Type} (enc : Encoder M) (comp : Compressor)
    (ce : Option CompressionEncoding) (item : M) : List Nat :=
  (frameStep enc comp ce [] item).1

/-- Payload of the frame emitted for one item: the compressor's output on
the encoder's output when compression is enabled, the encoder's output
otherwise. -/
def framePayload {M : Type} (enc : Encoder M) (comp : Compressor)
    (ce : Option CompressionEncoding) (item : M) : List Nat :=
  match ce with
  | some e =>
      let ub := (enc.encode item).1
      (comp.compress e ub ub.length).1
  | none => (enc.encode item).1

/-- The encode loop (`encode.rs` lines 48-81) threading the scratch buffer:
a ready item yields `Ok` of its frame (the statuses built by the discarded
`map_err` calls never surface), an error item yields `Err` of that status
and — the loop body has no `break` in this arm — processing continues with
the rest of the input; the loop ends when the input is exhausted. -/
def encodeLoop {M : Type} (enc : Encoder M) (comp : Compressor)
    (ce : Option CompressionEncoding) :
    List Nat → List (Except Status M) → List (Except Status (List Nat))
  | _, [] => []
  | scratch, Except.ok item :: rest =>
      let fs := frameStep enc comp ce scratch item
      Except.ok fs.1 :: encodeLoop enc comp ce fs.2 rest
  | scratch, Except.error err :: rest =>
      Except.error err :: encodeLoop enc comp ce scratch rest

/-- The stream returned by `encode` (`encode.rs` lines 30-83), as the list
of items it yields, in pull order, for a finite input. -/
def encode {M : Type} (enc : Encoder M) (comp : Compressor)
    (ce : Option CompressionEncoding) (respBody : List (Except Status M)) :
    List (Except Status (List Nat)) :=
  encodeLoop enc comp ce [] respBody

/-- Item-wise view of the encode loop, used to state order preservation. -/
def encodeItem {M : Type} (enc : Encoder M) (comp : Compressor)
    (ce : Option CompressionEncoding) : Except Status M → Except Status (List Nat)
  | Except.ok item => Except.ok (frameOf enc comp ce item)
  | Except.error err => Except.error err

/-- Role tag (`encode.rs` lines 111-115). -/
inductive Role
  | server
  | client
deriving DecidableEq, Repr

/-- State of `EncodeBody<S>` (`encode.rs` lines 116-123): the remaining
items of the inner stream, the role, the `is_end_stream` flag and the
optional stored error. `F` is the stream's data type (`Bytes` in the
source). -/
structure EncodeBody (F : Type) where
  inner : List (Except Status F)
  role : Role
  is_end_stream : Bool
  error : Option Status
deriving DecidableEq, Repr

/-- Constructor `EncodeBody::new_server` (`encode.rs` lines 126-133). -/
def EncodeBody.new_server {F : Type} (inner : List (Except Status F)) : EncodeBody F :=
  ⟨inner, Role.server, false, none⟩

/-- Constructor `EncodeBody::new_client` (`encode.rs` lines 135-142). -/
def EncodeBody.new_client {F : Type} (inner : List (Except Status F)) : EncodeBody F :=
  ⟨inner, Role.client, false, none⟩

/-- Body `poll_data` (`encode.rs` lines 157-170): pull one item from the
inner stream; a data item is returned as `some (ok d)`, an error item is
stored in `error` and `none` ("no more data") is returned, exhaustion
returns `none`. The result pairs the returned value with the new state. -/
def EncodeBody.poll_data {F : Type} (s : EncodeBody F) :
    Option (Except Status F) × EncodeBody F :=
  match s.inner with
  | [] => (none, s)
  | Except.ok d :: rest => (some (Except.ok d), { s with inner := rest })
  | Except.error st :: rest =>
      (none, { s with inner := rest, error := some st })

/-- Body `poll_trailers` (`encode.rs` lines 172-190). The trailer record is
modelled as the `Status` it is built from (`status.to_http().headers()`
merely re-encodes the status into header form). If `is_end_stream` is
already true the call answers `Ok(None)`; otherwise it takes the stored
error — setting `is_end_stream := true` only in that branch — or
synthesizes `Status::ok("")`, and answers `Ok(Some(trailer))`. -/
def EncodeBody.poll_trailers {F : Type} (s : EncodeBody F) :
    Except Status (Option Status) × EncodeBody F :=
  if s.is_end_stream then (Except.ok none, s)
  else
    match s.error with
    | some st =>
        (Except.ok (some st), { s with error := none, is_end_stream := true })
    | none => (Except.ok (some (Status.statusOk "")), s)

/-- Function `encode_server` (`encode.rs` lines 85-96). -/
def encode_server {M : Type} (enc : Encoder M) (comp : Compressor)
    (ce : Option CompressionEncoding) (body : List (Except Status M)) :
    EncodeBody (List Nat) :=
  EncodeBody.new_server (encode enc comp ce body)

/-- Function `encode_client` (`encode.rs` lines 98-109): the client body
stream is infallible and is mapped through `Ok` first. -/
def encode_client {M : Type} (enc : Encoder M) (comp : Compressor)
    (ce : Option CompressionEncoding) (body : List M) : EncodeBody (List Nat) :=
  EncodeBody.new_client (encode enc comp ce (body.map Except.ok))

/-- Observable queries on a body, for interleaving arguments. -/
inductive BodyOp
  | pullData
  | pullTrailers
  | endQuery
deriving DecidableEq, Repr

/-- Observation produced by one body query. -/
inductive Obs (F : Type)
  | data : Option (Except Status F) → Obs F
  | trailers : Except Status (Option Status) → Obs F
  | flag : Bool → Obs F
deriving DecidableEq, Repr

/-- One body query: its observation and the successor state. -/
def EncodeBody.step {F : Type} (s : EncodeBody F) : BodyOp → Obs F × EncodeBody F
  | BodyOp.pullData =>
      let r := s.poll_data
      (Obs.data r.1, r.2)
  | BodyOp.pullTrailers =>
      let r := s.poll_trailers
      (Obs.trailers r.1, r.2)
  | BodyOp.endQuery => (Obs.flag s.is_end_stream, s)

/-- Observation trace of a sequence of body queries. -/
def EncodeBody.run {F : Type} (s : EncodeBody F) : List BodyOp → List (Obs F)
  | [] => []
  | op :: ops =>
      let r := s.step op
      r.1 :: r.2.run ops

/-! Concrete capability instances used to evaluate the model at specific
inputs: an identity compressor, a fixed two-byte encoder, an encoder whose
call fails after writing nothing, a compressor whose call fails after
writing nothing, and an encoder producing a 2^32-byte output. -/

def idComp0 : Compressor := ⟨fun _ src _ => (src, none)⟩

def encU1 : Encoder Unit := ⟨fun _ => ([9, 9], none)⟩

def failEnc : Encoder Unit :=
  ⟨fun _ => ([], some (Status.internalStatus "encode fail"))⟩

def failComp : Compressor :=
  ⟨fun _ _ _ => ([], some (Status.internalStatus "compress fail"))⟩

def bigEnc : Encoder Unit := ⟨fun _ => (List.replicate (2 ^ 32) 0, none)⟩

def stBoom : Status := Status.internalStatus "boom"

/-! Helper lemmas about the frame layout and the encode loop. -/

/-- The emitted frame is the flag byte, then the 4 length bytes, then the
payload; the entering scratch buffer never influences it. -/
lemma frameStep_fst {M : Type} (enc : Encoder M) (comp : Compressor)
    (ce : Option CompressionEncoding) (scratch : List Nat) (item : M) :
    (frameStep enc comp ce scratch item).1 =
      (if enableCompress ce then 1 else 0) ::
        putU32 (framePayload enc comp ce item).length ++
          framePayload enc comp ce item := by
  cases ce <;> rfl

/-- Frame layout, at the canonical empty scratch buffer. -/
lemma frameOf_eq {M : Type} (enc : Encoder M) (comp : Compressor)
    (ce : Option CompressionEncoding) (item : M) :
    frameOf enc comp ce item =
      (if enableCompress ce then 1 else 0) ::
        putU32 (framePayload enc comp ce item).length ++
          framePayload enc comp ce item :=
  frameStep_fst enc comp ce [] item

/-- Dropping the 5 header bytes of a frame leaves exactly the payload. -/
lemma frameOf_drop_header {M : Type} (enc : Encoder M) (comp : Compressor)
    (ce : Option CompressionEncoding) (item : M) :
    (frameOf enc comp ce item).drop HEADER_SIZE = framePayload enc comp ce item := by
  cases ce <;> rfl

/-- Header bytes at offsets 1..4 of a frame are the `put_u32` image of the
payload length. -/
lemma frameOf_lengthField {M : Type} (enc : Encoder M) (comp : Compressor)
    (ce : Option CompressionEncoding) (item : M) :
    ((frameOf enc comp ce item).drop 1).take 4 =
      putU32 (framePayload enc comp ce item).length := by
  cases ce <;> rfl

/-- Reading back the 4 bytes written by `put_u32(n as u32)` recovers the
length reduced modulo 2^32. -/
lemma readU32BE_putU32 (n : Nat) : readU32BE (putU32 n) = n % 2 ^ 32 := by
  simp only [putU32, u32be, readU32BE]
  omega

/-- The encode loop is the item-wise map: the scratch buffer threaded
through iterations never influences the yielded items. -/
lemma encodeLoop_eq_map {M : Type} (enc : Encoder M) (comp : Compressor)
    (ce : Option CompressionEncoding) (l : List (Except Status M)) :
    ∀ scratch, encodeLoop enc comp ce scratch l = l.map (encodeItem enc comp ce) := by
  induction l with
  | nil => intro scratch; rfl
  | cons x rest ih =>
      intro scratch
      cases x with
      | ok item =>
          simp only [encodeLoop, List.map, encodeItem]
          rw [frameStep_fst enc comp ce scratch item, ← frameOf_eq, ih]
      | error st =>
          simp only [encodeLoop, List.map, encodeItem]
          rw [ih scratch]

/-- Every `Ok` item the encode stream yields is the frame of some ready
input item. -/
lemma mem_encode_ok {M : Type} (enc : Encoder M) (comp : Compressor)
    (ce : Option CompressionEncoding) (input : List (Except Status M)) (f : List Nat)
    (hf : Except.ok f ∈ encode enc comp ce input) :
    ∃ item, Except.ok item ∈ input ∧ f = frameOf enc comp ce item := by
  rw [encode, encodeLoop_eq_map] at hf
  obtain ⟨x, hx, hfx⟩ := List.mem_map.1 hf
  cases x with
  | ok item =>
      refine ⟨item, hx, ?_⟩
      simpa [encodeItem] using hfx.symm
  | error st => simp [encodeItem] at hfx

/-! Claim theorems. -/

/-- C1, counterexample: the claim asserts the length field read back as an
unsigned 32-bit big-endian integer equals the exact payload byte count for
every successfully framed message. With an encoder whose output is 2^32
bytes long, the encode loop emits an `Ok` frame whose payload after the
5-byte header has 2^32 bytes while the length field reads back 0, because
`len as u32` truncated the count. -/
theorem C1_counterexample :
    encode bigEnc idComp0 none [Except.ok ()] =
      [Except.ok (frameOf bigEnc idComp0 none ())] ∧
    ((frameOf bigEnc idComp0 none ()).drop HEADER_SIZE).length = 2 ^ 32 ∧
    readU32BE (((frameOf bigEnc idComp0 none ()).drop 1).take 4) = 0 ∧
    (0 : Nat) ≠ 2 ^ 32 := by
  have hpay : framePayload bigEnc idComp0 none () = List.replicate (2 ^ 32) 0 := rfl
  have hlen : (framePayload bigEnc idComp0 none ()).length = 2 ^ 32 := by
    rw [hpay, List.length_replicate]
  refine ⟨rfl, ?_, ?_, by norm_num⟩
  · rw [frameOf_drop_header, hlen]
  · rw [frameOf_lengthField, readU32BE_putU32, hlen, Nat.mod_self]

/-- C1, amended: for every message successfully framed by the encode loop
whose payload is shorter than 2^32 bytes, the emitted frame consists of a
5-byte header followed by the payload, and header bytes 1..4 read as an
unsigned 32-bit big-endian integer equal the exact byte count of the
payload that follows the header. -/
theorem C1_amended (M : Type) (enc : Encoder M) (comp : Compressor)
    (ce : Option CompressionEncoding) (input : List (Except Status M)) (f : List Nat)
    (hf : Except.ok f ∈ encode enc comp ce input)
    (hlen : (f.drop HEADER_SIZE).length < 2 ^ 32) :
    HEADER_SIZE ≤ f.length ∧
    readU32BE ((f.drop 1).take 4) = (f.drop HEADER_SIZE).length := by
  obtain ⟨item, _, rfl⟩ := mem_encode_ok enc comp ce input f hf
  rw [frameOf_drop_header] at hlen ⊢
  constructor
  · rw [frameOf_eq]
    simp [HEADER_SIZE, putU32, u32be]
  · rw [frameOf_lengthField, readU32BE_putU32]
    exact Nat.mod_eq_of_lt hlen

/-- C1, witness for the amended theorem at a concrete two-byte message. -/
theorem C1_amended_witness :
    (Except.ok (frameOf encU1 idComp0 none ()) ∈
        encode encU1 idComp0 none [Except.ok ()]) ∧
    ((frameOf encU1 idComp0 none ()).drop HEADER_SIZE).length < 2 ^ 32 ∧
    (HEADER_SIZE ≤ (frameOf encU1 idComp0 none ()).length ∧
      readU32BE (((frameOf encU1 idComp0 none ()).drop 1).take 4) =
        ((frameOf encU1 idComp0 none ()).drop HEADER_SIZE).length) :=
  ⟨by decide, by decide,
    C1_amended Unit encU1 idComp0 none [Except.ok ()]
      (frameOf encU1 idComp0 none ()) (by decide) (by decide)⟩

/-- C2, code-bug evidence: the source builds
`Status::internal("encode error")` / `Status::internal("compress error")`
via `map_err` but discards the resulting `Result` (under
`#[allow(unused_must_use)]`), so a failing encoder call and a failing
compressor call each still produce an `Ok` frame — here with an empty
payload — and no error item ever appears in the stream, contradicting the
claim that such failures surface as a terminal internal-status failure. -/
theorem C2_code_bug_eval :
    encode failEnc idComp0 none [Except.ok ()] = [Except.ok [0, 0, 0, 0, 0]] ∧
    encode encU1 failComp (some CompressionEncoding.gzip) [Except.ok ()] =
      [Except.ok [1, 0, 0, 0, 0]] ∧
    (∀ x ∈ encode failEnc idComp0 none [Except.ok ()], x.isOk = true) ∧
    (∀ x ∈ encode encU1 failComp (some CompressionEncoding.gzip) [Except.ok ()],
      x.isOk = true) := by
  decide

/-- C9: the 4-byte length field is the payload byte count reduced modulo
2^32 (the `as u32` cast), written big-endian; reading it back equals the
true payload byte count exactly when that count is below 2^32. -/
theorem C9_length_field (M : Type) (enc : Encoder M) (comp : Compressor)
    (ce : Option CompressionEncoding) (item : M) :
    ((frameOf enc comp ce item).drop 1).take 4 =
      putU32 (framePayload enc comp ce item).length ∧
    readU32BE (((frameOf enc comp ce item).drop 1).take 4) =
      (framePayload enc comp ce item).length % 2 ^ 32 ∧
    (readU32BE (((frameOf enc comp ce item).drop 1).take 4) =
        (framePayload enc comp ce item).length ↔
      (framePayload enc comp ce item).length < 2 ^ 32) := by
  refine ⟨frameOf_lengthField enc comp ce item, ?_, ?_⟩
  · rw [frameOf_lengthField, readU32BE_putU32]
  · rw [frameOf_lengthField, readU32BE_putU32]
    constructor
    · intro h
      have := Nat.mod_lt (framePayload enc comp ce item).length
        (y := 2 ^ 32) (by norm_num)
      omega
    · exact Nat.mod_eq_of_lt

/-- C3, counterexample: the claim asserts nothing is ever produced after
the first failure. With input `[Err boom, Ok m]` the stream yields the
failure at the first pull and then — the `Some(Err) => yield Err` arm has
no `break` — yields a further `Ok` frame at the next pull; likewise the
body's `poll_data` returns a data item on the pull after the one that
observed the failure. -/
theorem C3_counterexample :
    encode encU1 idComp0 none [Except.error stBoom, Except.ok ()] =
      [Except.error stBoom, Except.ok [0, 0, 0, 0, 2, 9, 9]] ∧
    (encode encU1 idComp0 none [Except.error stBoom, Except.ok ()]).get? 1 =
      some (Except.ok [0, 0, 0, 0, 2, 9, 9]) ∧
    ((EncodeBody.new_server
        (encode encU1 idComp0 none [Except.error stBoom, Except.ok ()])).poll_data).1 =
      none ∧
    (((EncodeBody.new_server
          (encode encU1 idComp0 none
            [Except.error stBoom, Except.ok ()])).poll_data).2.poll_data).1 =
      some (Except.ok [0, 0, 0, 0, 2, 9, 9]) := by
  decide

/-- C3, amended: when the input's first failure is an upstream error
preceded by `k-1` ready messages, the stream yields those `k-1` frames
(all successful), then the failure — but the stream is not terminal there:
subsequent pulls continue encoding the remaining input, and the stream
ends only when the input is exhausted. (Encoder and compressor failures
never surface as stream failures at all; see C2.) -/
theorem C3_amended (M : Type) (enc : Encoder M) (comp : Compressor)
    (ce : Option CompressionEncoding) (pre post : List (Except Status M))
    (st : Status) (hpre : ∀ x ∈ pre, x.isOk = true) :
    encode enc comp ce (pre ++ Except.error st :: post) =
      pre.map (encodeItem enc comp ce) ++
        Except.error st :: post.map (encodeItem enc comp ce) ∧
    (pre.map (encodeItem enc comp ce)).length = pre.length ∧
    (∀ y ∈ pre.map (encodeItem enc comp ce), y.isOk = true) := by
  refine ⟨?_, List.length_map _ _, ?_⟩
  · rw [encode, encodeLoop_eq_map, List.map_append, List.map_cons, encodeItem]
  · intro y hy
    obtain ⟨x, hx, rfl⟩ := List.mem_map.1 hy
    cases x with
    | ok item => rfl
    | error e => exact absurd (hpre _ hx) (by simp [Except.isOk, Except.toBool])

/-- C3, witness for the amended theorem: one ready message before the
failure, one ready message after it. -/
theorem C3_amended_witness :
    (∀ x ∈ ([Except.ok ()] : List (Except Status Unit)), x.isOk = true) ∧
    (encode encU1 idComp0 none
        [Except.ok (), Except.error stBoom, Except.ok ()] =
      ([Except.ok ()] : List (Except Status Unit)).map
          (encodeItem encU1 idComp0 none) ++
        Except.error stBoom ::
          ([Except.ok ()] : List (Except Status Unit)).map
            (encodeItem encU1 idComp0 none) ∧
      (([Except.ok ()] : List (Except Status Unit)).map
          (encodeItem encU1 idComp0 none)).length =
        ([Except.ok ()] : List (Except Status Unit)).length ∧
      (∀ y ∈ ([Except.ok ()] : List (Except Status Unit)).map
          (encodeItem encU1 idComp0 none),
        y.isOk = true)) :=
  ⟨by decide,
    C3_amended Unit encU1 idComp0 none [Except.ok ()] [Except.ok ()] stBoom
      (by decide)⟩

/-- C5: the first header byte is 1 exactly when compression is enabled and
0 otherwise; with compression enabled the payload after the header is the
compressor's output on the encoder's output for the message — and the
scratch buffer after the iteration holds exactly that encoder output —
while with compression disabled the payload is exactly the encoder's
output. -/
theorem C5_flag_payload (M : Type) (enc : Encoder M) (comp : Compressor)
    (ce : Option CompressionEncoding) (item : M) :
    (frameOf enc comp ce item).head? =
      some (if enableCompress ce then 1 else 0) ∧
    (∀ e, ce = some e →
      (frameOf enc comp ce item).drop HEADER_SIZE =
          (comp.compress e (enc.encode item).1 (enc.encode item).1.length).1 ∧
        ∀ scratch, (frameStep enc comp ce scratch item).2 = (enc.encode item).1) ∧
    (ce = none →
      (frameOf enc comp ce item).drop HEADER_SIZE = (enc.encode item).1) := by
  refine ⟨?_, ?_, ?_⟩
  · rw [frameOf_eq]
    rfl
  · rintro e rfl
    exact ⟨frameOf_drop_header enc comp (some e) item, fun scratch => rfl⟩
  · rintro rfl
    exact frameOf_drop_header enc comp none item

/-- C5, witness at a concrete message for both compression selections. -/
theorem C5_flag_payload_witness :
    ((some CompressionEncoding.gzip = some CompressionEncoding.gzip) ∧
      (frameOf encU1 idComp0 (some CompressionEncoding.gzip) ()).drop HEADER_SIZE =
          (idComp0.compress CompressionEncoding.gzip (encU1.encode ()).1
            (encU1.encode ()).1.length).1 ∧
        ∀ scratch,
          (frameStep encU1 idComp0 (some CompressionEncoding.gzip) scratch ()).2 =
            (encU1.encode ()).1) ∧
    ((none : Option CompressionEncoding) = none ∧
      (frameOf encU1 idComp0 none ()).drop HEADER_SIZE = (encU1.encode ()).1) :=
  ⟨⟨rfl, (C5_flag_payload Unit encU1 idComp0 (some CompressionEncoding.gzip) ()).2.1
      CompressionEncoding.gzip rfl⟩,
    ⟨rfl, (C5_flag_payload Unit encU1 idComp0 none ()).2.2 rfl⟩⟩

/-- C6: a finite input of `n` ready messages with no failures yields
exactly `n` frames, one per message, in input order, and the stream then
ends with no failure: the output is literally the input list mapped to
`Ok` of each message's frame. -/
theorem C6_order_preservation (M : Type) (enc : Encoder M) (comp : Compressor)
    (ce : Option CompressionEncoding) (ms : List M) :
    encode enc comp ce (ms.map Except.ok) =
      ms.map (fun m => Except.ok (frameOf enc comp ce m)) ∧
    (encode enc comp ce (ms.map Except.ok)).length = ms.length := by
  have h : encode enc comp ce (ms.map Except.ok) =
      ms.map (fun m => Except.ok (frameOf enc comp ce m)) := by
    rw [encode, encodeLoop_eq_map, List.map_map]
    rfl
  exact ⟨h, by rw [h, List.length_map]⟩

/-- C4, counterexample: the claim asserts the first trailer pull after data
production ends sets `is_end_stream` to true and a second pull returns "no
trailers". On clean exhaustion (empty inner stream, `poll_data` answered
"no more data", no stored error) the first trailer pull answers an ok
trailer but leaves `is_end_stream` false — the flag assignment sits only in
the stored-error branch — so the second trailer pull answers another ok
trailer instead of "no trailers". -/
theorem C4_counterexample :
    ((EncodeBody.new_server ([] : List (Except Status Unit))).poll_data).1 =
      none ∧
    (((EncodeBody.new_server ([] : List (Except Status Unit))).poll_data).2.poll_trailers).1 =
      Except.ok (some (Status.statusOk "")) ∧
    (((EncodeBody.new_server
        ([] : List (Except Status Unit))).poll_data).2.poll_trailers).2.is_end_stream =
      false ∧
    ((((EncodeBody.new_server
        ([] : List (Except Status Unit))).poll_data).2.poll_trailers).2.poll_trailers).1 =
      Except.ok (some (Status.statusOk "")) ∧
    Except.ok (some (Status.statusOk "")) ≠
      (Except.ok none : Except Status (Option Status)) := by
  decide

/-- C4, amended: with `is_end_stream` still false, a trailer pull behaves
one-shot only in the failure case: if a failure status was recorded, the
pull returns that status, sets `is_end_stream` to true, and a second pull
returns "no trailers"; if no failure was recorded (clean exhaustion), the
pull returns an ok trailer, leaves `is_end_stream` false, and a second
pull returns another ok trailer. -/
theorem C4_amended (F : Type) (s : EncodeBody F) (h : s.is_end_stream = false) :
    (∀ st, s.error = some st →
      s.poll_trailers.1 = Except.ok (some st) ∧
        s.poll_trailers.2.is_end_stream = true ∧
        s.poll_trailers.2.poll_trailers.1 = Except.ok none) ∧
    (s.error = none →
      s.poll_trailers.1 = Except.ok (some (Status.statusOk "")) ∧
        s.poll_trailers.2.is_end_stream = false ∧
        s.poll_trailers.2.poll_trailers.1 =
          Except.ok (some (Status.statusOk ""))) := by
  constructor
  · intro st hst
    simp [EncodeBody.poll_trailers, h, hst]
  · intro hnone
    simp [EncodeBody.poll_trailers, h, hnone]

/-- C4, witness for the amended theorem: a body with a recorded failure and
a body after clean exhaustion. -/
theorem C4_amended_witness :
    ((⟨[], Role.server, false, some stBoom⟩ : EncodeBody Unit).is_end_stream =
        false ∧
      ((⟨[], Role.server, false, some stBoom⟩ : EncodeBody Unit).poll_trailers.1 =
          Except.ok (some stBoom) ∧
        (⟨[], Role.server, false,
            some stBoom⟩ : EncodeBody Unit).poll_trailers.2.is_end_stream = true ∧
        (⟨[], Role.server, false,
            some stBoom⟩ : EncodeBody Unit).poll_trailers.2.poll_trailers.1 =
          Except.ok none)) ∧
    ((⟨[], Role.server, false, none⟩ : EncodeBody Unit).poll_trailers.1 =
        Except.ok (some (Status.statusOk "")) ∧
      (⟨[], Role.server, false,
          none⟩ : EncodeBody Unit).poll_trailers.2.is_end_stream = false ∧
      (⟨[], Role.server, false,
          none⟩ : EncodeBody Unit).poll_trailers.2.poll_trailers.1 =
        Except.ok (some (Status.statusOk ""))) :=
  ⟨⟨rfl, (C4_amended Unit ⟨[], Role.server, false, some stBoom⟩ rfl).1 stBoom rfl⟩,
    (C4_amended Unit ⟨[], Role.server, false, none⟩ rfl).2 rfl⟩

/-- C7: a data pull that observes a failure from the inner stream stores it
as the pending status and returns "no more data" with `is_end_stream`
unchanged; no data pull — failed pull or exhaustion — ever changes
`is_end_stream`. -/
theorem C7_poll_data_failure (F : Type) (s : EncodeBody F) (st : Status)
    (rest : List (Except Status F)) (h : s.inner = Except.error st :: rest) :
    s.poll_data.1 = none ∧
    s.poll_data.2.error = some st ∧
    s.poll_data.2.inner = rest ∧
    s.poll_data.2.is_end_stream = s.is_end_stream ∧
    (∀ t : EncodeBody F, t.poll_data.2.is_end_stream = t.is_end_stream) := by
  refine ⟨?_, ?_, ?_, ?_, ?_⟩
  · simp [EncodeBody.poll_data, h]
  · simp [EncodeBody.poll_data, h]
  · simp [EncodeBody.poll_data, h]
  · simp [EncodeBody.poll_data, h]
  · intro t
    cases ht : t.inner with
    | nil => simp [EncodeBody.poll_data, ht]
    | cons x rest' => cases x <;> simp [EncodeBody.poll_data, ht]

/-- C7, witness: a body whose inner stream starts with a failure. -/
theorem C7_poll_data_failure_witness :
    ((⟨[Except.error stBoom], Role.server, false,
        none⟩ : EncodeBody Unit).inner = Except.error stBoom :: []) ∧
    ((⟨[Except.error stBoom], Role.server, false,
          none⟩ : EncodeBody Unit).poll_data.1 = none ∧
      (⟨[Except.error stBoom], Role.server, false,
          none⟩ : EncodeBody Unit).poll_data.2.error = some stBoom ∧
      (⟨[Except.error stBoom], Role.server, false,
          none⟩ : EncodeBody Unit).poll_data.2.inner = [] ∧
      (⟨[Except.error stBoom], Role.server, false,
            none⟩ : EncodeBody Unit).poll_data.2.is_end_stream =
        (⟨[Except.error stBoom], Role.server, false,
            none⟩ : EncodeBody Unit).is_end_stream ∧
      (∀ t : EncodeBody Unit, t.poll_data.2.is_end_stream = t.is_end_stream)) :=
  ⟨rfl,
    C7_poll_data_failure Unit ⟨[Except.error stBoom], Role.server, false, none⟩
      stBoom [] rfl⟩

/-- Observation traces do not depend on the role tag: helper for C8,
proved by induction over the query sequence with every other state
component shared. -/
lemma run_role_irrel {F : Type} (ops : List BodyOp) :
    ∀ (i : List (Except Status F)) (b : Bool) (er : Option Status) (r1 r2 : Role),
      EncodeBody.run ⟨i, r1, b, er⟩ ops = EncodeBody.run ⟨i, r2, b, er⟩ ops := by
  induction ops with
  | nil => intro i b er r1 r2; rfl
  | cons op ops ih =>
      intro i b er r1 r2
      cases op with
      | pullData =>
          cases i with
          | nil => exact congrArg (List.cons _) (ih [] b er r1 r2)
          | cons x rest =>
              cases x with
              | ok d => exact congrArg (List.cons _) (ih rest b er r1 r2)
              | error st => exact congrArg (List.cons _) (ih rest b (some st) r1 r2)
      | pullTrailers =>
          cases b with
          | true => exact congrArg (List.cons _) (ih i true er r1 r2)
          | false =>
              cases er with
              | none => exact congrArg (List.cons _) (ih i false none r1 r2)
              | some st => exact congrArg (List.cons _) (ih i true none r1 r2)
      | endQuery => exact congrArg (List.cons _) (ih i b er r1 r2)

/-- C8: over the same inner stream, a server-role body and a client-role
body return identical results for every interleaving of data pulls,
trailer pulls and end-of-stream queries — the role tag has no influence on
observable behavior. -/
theorem C8_role_no_influence (F : Type) (inner : List (Except Status F))
    (ops : List BodyOp) :
    EncodeBody.run (EncodeBody.new_server inner) ops =
      EncodeBody.run (EncodeBody.new_client inner) ops :=
  run_role_irrel ops inner false none Role.server Role.client

/-- C10: a trailer pull never fails — for every body state `poll_trailers`
returns the `Ok` variant ("no trailers" or a trailer record); any exchange
failure travels inside the returned trailer's status, never as the error
variant of the pull itself. -/
theorem C10_poll_trailers_total (F : Type) (s : EncodeBody F) :
    (s.poll_trailers.1).isOk = true := by
  unfold EncodeBody.poll_trailers
  by_cases h : s.is_end_stream
  · simp [h, Except.isOk, Except.toBool]
  · cases he : s.error <;> simp [h, he, Except.isOk, Except.toBool]

end DubboRust
